import Mathlib

/-!
Shallow embedding of `src/client_super.py` (class `MCPClient`): the session
manager (`connect_to_server`), the catalog (the `tool_to_server` dict), the
conversation orchestrator (`process_query`) and start-up (`main`).  Python
dicts with string keys are insertion-ordered association lists; fallible
remote operations are parameterised by explicit outcome oracles; exceptions
are explicit outcomes.
-/

namespace MCPClient

/-- A tool advertised by a provider (`mcp.Tool`): name, description and input
schema.  The schema is opaque to the client, modelled as a string. -/
structure Tool where
  name : String
  description : String
  inputSchema : String
deriving Repr, DecidableEq

/-- Python `d[k] = v` on a string-keyed dict: replace the value in place when
the key is present, append the pair otherwise (insertion order kept). -/
def dictInsert {α : Type} : List (String × α) → String → α → List (String × α)
  | [], k, v => [(k, v)]
  | p :: rest, k, v => if p.1 == k then (k, v) :: rest else p :: dictInsert rest k v

/-- Python `d.get(k)`: the value stored under `k`, or `None`. -/
def dictGet {α : Type} : List (String × α) → String → Option α
  | [], _ => none
  | p :: rest, k => if p.1 == k then some p.2 else dictGet rest k

/-- The mutable state of an `MCPClient` object: `sessions` (server name → live
`ClientSession`, modelled by presence), `tools` (server name → advertised tool
list) and `tool_to_server` (tool name → owning server name). -/
structure ClientState where
  sessions : List (String × Unit)
  tools : List (String × List Tool)
  tool_to_server : List (String × String)
deriving Repr, DecidableEq

/-- The state `MCPClient.__init__` leaves behind: all three dicts empty. -/
def emptyState : ClientState := ⟨[], [], []⟩

/-- How one `connect_to_server(name, command, args)` call can go.  The stages
follow the source order: the transport/session entry can fail before
`self.sessions[name] = session` runs (line 45); `session.initialize()` (the
handshake, line 47) and `session.list_tools()` (discovery, line 50) can fail
after the session is stored; on success the discovered tools are registered. -/
inductive ConnectOutcome
  | transportFail
  | initFail
  | discoveryFail
  | ok (ts : List Tool)
deriving Repr, DecidableEq

/-- `connect_to_server`: the state update plus whether an exception escaped.
On success, `self.sessions[name] = session`, `self.tools[name] = response.tools`
and `self.tool_to_server[tool.name] = name` for each advertised tool, in
order. -/
def connect_to_server (st : ClientState) (name : String) (oc : ConnectOutcome) :
    ClientState × Bool :=
  match oc with
  | .transportFail => (st, true)
  | .initFail => ({ st with sessions := dictInsert st.sessions name () }, true)
  | .discoveryFail => ({ st with sessions := dictInsert st.sessions name () }, true)
  | .ok ts =>
      let st1 : ClientState := { st with sessions := dictInsert st.sessions name () }
      let st2 : ClientState := { st1 with tools := dictInsert st1.tools name ts }
      ({ st2 with tool_to_server :=
          ts.foldl (fun m t => dictInsert m t.name name) st2.tool_to_server }, false)

/-- One tool call in a model response (OpenAI `tool_call`): its id, function
name and the parsed form of the JSON arguments string — `none` when
`json.loads(tool_call.function.arguments)` (line 108) would raise. -/
structure ToolCall where
  id : String
  name : String
  arguments : Option String
deriving Repr, DecidableEq

/-- One model response message (`response.choices[0].message`): optional text
content and the list of requested tool calls, in emission order. -/
structure ModelMessage where
  content : Option String
  tool_calls : List ToolCall
deriving Repr, DecidableEq

/-- One entry of the `messages` history `process_query` builds: the initial
user message, the per-call fabricated assistant message (lines 134-146), or
the tool-result message (lines 147-151). -/
inductive Message
  | user (content : String)
  | assistant (tool_calls : List ToolCall)
  | tool (tool_call_id : String) (content : String)
deriving Repr, DecidableEq

/-- What `session.call_tool(tool_name, tool_args)` does: return a result whose
`content` stringifies to `content`, or raise an exception stringifying to
`emsg`. -/
inductive CallOutcome
  | ok (content : String)
  | err (emsg : String)
deriving Repr, DecidableEq

/-- Python truthiness of an optional string: `None` and `""` are falsy. -/
def isTruthy : Option String → Bool
  | none => false
  | some s => !s.isEmpty

/-- Python `message.content or ""`. -/
def contentOrEmpty (c : Option String) : String := c.getD ""

/-- Python `"\n".join(final_text)`. -/
def joinNL : List String → String
  | [] => ""
  | [s] => s
  | s :: r :: rest => s ++ "\n" ++ joinNL (r :: rest)

/-- The annotation appended on a successful call (line 127). -/
def callAnnot (toolName serverName args : String) : String :=
  s!"[调用工具 {toolName} (服务器: {serverName}), 参数: {args}]"

/-- The annotation appended for any error message (lines 114, 121, 130). -/
def errAnnot (emsg : String) : String := s!"[错误: {emsg}]"

/-- The error message when no server owns the tool (line 113). -/
def notFoundMsg (toolName : String) : String := s!"找不到工具 {toolName} 所属的服务器"

/-- The error message when the owning server has no session (line 120). -/
def noSessionMsg (serverName : String) : String := s!"找不到服务器 {serverName} 的会话"

/-- The error message when `call_tool` raises (line 129); it is also the
content of the fabricated result object (line 131). -/
def invokeFailMsg (toolName emsg : String) : String := s!"调用工具 {toolName} 失败: {emsg}"

/-- The assistant message fabricated for one tool call (lines 134-146):
a single-element `tool_calls` list echoing the call id, tool name and the
re-serialised arguments. -/
def mkAssistant (tc : ToolCall) (args : String) : Message :=
  .assistant [⟨tc.id, tc.name, some args⟩]

/-- The body of the `for tool_call in message.tool_calls` loop (lines 106-151)
for one call: `none` when the argument parse raises (propagating the
exception), otherwise the annotations appended to `final_text` and the
messages appended to `messages`.  `ct server tool args` is the provider
oracle standing for `session.call_tool`. -/
def processToolCall (st : ClientState) (ct : String → String → String → CallOutcome)
    (tc : ToolCall) : Option (List String × List Message) :=
  match tc.arguments with
  | none => none
  | some args =>
    match dictGet st.tool_to_server tc.name with
    | none => some ([errAnnot (notFoundMsg tc.name)], [])
    | some server =>
      if server.isEmpty then some ([errAnnot (notFoundMsg tc.name)], [])
      else
        match dictGet st.sessions server with
        | none => some ([errAnnot (noSessionMsg server)], [])
        | some _ =>
          match ct server tc.name args with
          | .ok content =>
              some ([callAnnot tc.name server args],
                [mkAssistant tc args, .tool tc.id content])
          | .err e =>
              some ([errAnnot (invokeFailMsg tc.name e)],
                [mkAssistant tc args, .tool tc.id (invokeFailMsg tc.name e)])

/-- The whole `for` loop over one response's tool calls, in order; `none` when
a call's argument parse raises. -/
def runCalls (st : ClientState) (ct : String → String → String → CallOutcome) :
    List ToolCall → Option (List String × List Message)
  | [] => some ([], [])
  | tc :: rest =>
    match processToolCall st ct tc with
    | none => none
    | some p =>
      match runCalls st ct rest with
      | none => none
      | some q => some (p.1 ++ q.1, p.2 ++ q.2)

/-- What one `process_query` run produces when it returns: the joined output,
the final `messages` history, how many model calls were made, and the
`final_text` segments in order. -/
structure PQResult where
  output : String
  messages : List Message
  modelCalls : Nat
  finalTextSegs : List String
deriving Repr, DecidableEq

/-- How a `process_query` run ends: a normal return, an exception propagating
(the argument parse on line 108), or the supplied response script ran out
(a modelling artifact: the real model is called as often as needed). -/
inductive PQOutcome
  | done (r : PQResult)
  | raised
  | outOfResponses
deriving Repr, DecidableEq

/-- The `while message.tool_calls` loop (lines 104-163): `message` is the
current model response, `rest` the responses the model will give to the
follow-up calls, `ft` the accumulated `final_text`, `msgs` the accumulated
`messages`, `calls` how many model calls happened so far.  A follow-up
response's text is appended only when truthy (lines 161-162). -/
def pqLoop (st : ClientState) (ct : String → String → String → CallOutcome)
    (message : ModelMessage) (rest : List ModelMessage) (ft : List String)
    (msgs : List Message) (calls : Nat) : PQOutcome :=
  if message.tool_calls.isEmpty then
    .done ⟨joinNL ft, msgs, calls, ft⟩
  else
    match runCalls st ct message.tool_calls with
    | none => .raised
    | some p =>
      match rest with
      | [] => .outOfResponses
      | r :: rest' =>
        pqLoop st ct r rest'
          (ft ++ p.1 ++ (if isTruthy r.content then [contentOrEmpty r.content] else []))
          (msgs ++ p.2) (calls + 1)

/-- `process_query(query)` (lines 60-164), parameterised by the provider
oracle and the script of model responses.  The first response's text (or `""`)
is always recorded (line 101); the history starts with the user message. -/
def process_query (st : ClientState) (ct : String → String → String → CallOutcome)
    (query : String) (responses : List ModelMessage) : PQOutcome :=
  match responses with
  | [] => .outOfResponses
  | r0 :: rest =>
      pqLoop st ct r0 rest [contentOrEmpty r0.content] [.user query] 1

/-- One entry of `config['mcpServers']`: its name and whether the `command`
and `args` keys are present (lines 209-213). -/
structure ServerEntry where
  name : String
  hasCommand : Bool
  hasArgs : Bool
deriving Repr, DecidableEq

/-- The possible shapes of the `mcp.json` configuration as `main` reads it:
missing file (`FileNotFoundError`), invalid JSON (`json.JSONDecodeError`),
a document without the `mcpServers` key, or a (possibly empty) server map. -/
inductive Config
  | fileNotFound
  | invalidJson
  | noServersKey
  | servers (entries : List ServerEntry)
deriving Repr, DecidableEq

/-- What one `main()` run does, observed at the process level: the interpreter
exit status (0 on a normal return from `asyncio.run(main())`, 1 on an escaped
exception), whether `chat_loop` was entered, whether a diagnostic was printed,
the client state at the end of start-up, and which servers a connect was
attempted for, in order. -/
structure MainResult where
  exitCode : Nat
  enteredChatLoop : Bool
  printedDiagnostic : Bool
  finalState : ClientState
  attempted : List String
deriving Repr, DecidableEq

/-- The `for server_name, server_config in config['mcpServers'].items()` loop
(lines 209-219): entries missing `command` or `args` are skipped with a
diagnostic; `connect_to_server` is awaited with no surrounding try, so a
raising connect stops the loop and the exception escapes. -/
def connectAll (ocf : String → ConnectOutcome) :
    ClientState → List ServerEntry → ClientState × List String × Bool
  | st, [] => (st, [], false)
  | st, e :: es =>
    if !e.hasCommand || !e.hasArgs then
      connectAll ocf st es
    else
      let p := connect_to_server st e.name (ocf e.name)
      if p.2 then (p.1, [e.name], true)
      else
        let q := connectAll ocf p.1 es
        (q.1, e.name :: q.2.1, q.2.2)

/-- `main()` (lines 190-234): config problems print a message and return
(normal exit, status 0); with a non-empty server map every entry is connected
in order and `chat_loop()` runs only if no connect raised; an exception
escaping `main` makes the interpreter exit with status 1. -/
def main (cfg : Config) (ocf : String → ConnectOutcome) : MainResult :=
  match cfg with
  | .fileNotFound => ⟨0, false, true, emptyState, []⟩
  | .invalidJson => ⟨0, false, true, emptyState, []⟩
  | .noServersKey => ⟨0, false, true, emptyState, []⟩
  | .servers es =>
    if es.isEmpty then ⟨0, false, true, emptyState, []⟩
    else
      let t := connectAll ocf emptyState es
      if t.2.2 then ⟨1, false, true, t.1, t.2.1⟩
      else ⟨0, true, false, t.1, t.2.1⟩

/-- The messages of a completed run, `[]` for an aborted one. -/
def pqMessages : PQOutcome → List Message
  | .done r => r.messages
  | _ => []

/-- The result content of one routed call: the provider's content on success,
the fabricated error object's content on an exception. -/
def callContent (ct : String → String → String → CallOutcome)
    (server tool args : String) : String :=
  match ct server tool args with
  | .ok c => c
  | .err e => invokeFailMsg tool e

/-- The output annotation of one routed call: the invocation annotation on
success, the error annotation on an exception. -/
def callSeg (ct : String → String → String → CallOutcome)
    (server tool args : String) : String :=
  match ct server tool args with
  | .ok _ => callAnnot tool server args
  | .err e => errAnnot (invokeFailMsg tool e)

/-! Concrete fixtures used by counterexamples and witnesses. -/

def tShared : Tool := ⟨"shared_tool", "d", "s"⟩

/-- Two providers, connected in the order p1 then p2, both advertising
`shared_tool`. -/
def stCollide : ClientState :=
  (connect_to_server (connect_to_server emptyState "p1" (.ok [tShared])).1
    "p2" (.ok [tShared])).1

/-- A provider oracle answering with the name of the server that was called. -/
def ctServerName : String → String → String → CallOutcome := fun server _ _ => .ok server

/-- One provider `p1` with one tool `echo`. -/
def stOne : ClientState := (connect_to_server emptyState "p1" (.ok [⟨"echo", "d", "s"⟩])).1

/-- A provider oracle that always succeeds, echoing tool and arguments. -/
def ctOk : String → String → String → CallOutcome :=
  fun _ tool args => .ok ("ran:" ++ tool ++ ":" ++ args)

/-- One provider `srv` with tools `tA`, `tB`, `tC`. -/
def stThree : ClientState :=
  (connect_to_server emptyState "srv" (.ok [⟨"tA", "d", "s"⟩, ⟨"tB", "d", "s"⟩, ⟨"tC", "d", "s"⟩])).1

/-- A provider oracle where calling `tB` raises `boom` and any other tool
succeeds. -/
def ctSix : String → String → String → CallOutcome := fun _ tool _ =>
  if tool == "tB" then .err "boom" else .ok ("res:" ++ tool)

/-- A connect oracle where every connect fails in transport (unused by the
runs it is passed to). -/
def ocAny : String → ConnectOutcome := fun _ => .transportFail

/-- Two configured providers, both with complete entries. -/
def cfgC4 : Config := .servers [⟨"p1", true, true⟩, ⟨"p2", true, true⟩]

/-- A connect oracle where `p1` fails its handshake and any other provider
connects fine. -/
def ocC4 : String → ConnectOutcome := fun name =>
  if name == "p1" then .initFail else .ok [⟨"t2", "d", "s"⟩]

/-! Dictionary lemmas. -/

theorem dictGet_dictInsert_self {α : Type} (d : List (String × α)) (k : String) (v : α) :
    dictGet (dictInsert d k v) k = some v := by
  induction d with
  | nil => simp [dictInsert, dictGet]
  | cons p rest ih =>
    by_cases h : p.1 = k
    · simp [dictInsert, dictGet, h]
    · simp [dictInsert, dictGet, h, ih]

theorem dictGet_dictInsert_ne {α : Type} (d : List (String × α)) (k k' : String) (v : α)
    (h : k' ≠ k) : dictGet (dictInsert d k v) k' = dictGet d k' := by
  induction d with
  | nil => simp [dictInsert, dictGet, Ne.symm h]
  | cons p rest ih =>
    by_cases hp : p.1 = k
    · simp [dictInsert, dictGet, hp, Ne.symm h]
    · simp [dictInsert, dictGet, hp, ih]

theorem dictGet_regFold_not_mem (ts : List Tool) (nm t : String) (m : List (String × String))
    (h : t ∉ ts.map Tool.name) :
    dictGet (ts.foldl (fun m tl => dictInsert m tl.name nm) m) t = dictGet m t := by
  induction ts generalizing m with
  | nil => rfl
  | cons tl rest ih =>
    simp only [List.map_cons, List.mem_cons, not_or] at h
    simp only [List.foldl_cons]
    rw [ih _ h.2, dictGet_dictInsert_ne _ _ _ _ h.1]

theorem dictGet_regFold_mem (ts : List Tool) (nm t : String) (m : List (String × String))
    (h : t ∈ ts.map Tool.name) :
    dictGet (ts.foldl (fun m tl => dictInsert m tl.name nm) m) t = some nm := by
  induction ts generalizing m with
  | nil => simp at h
  | cons tl rest ih =>
    simp only [List.foldl_cons]
    by_cases hr : t ∈ rest.map Tool.name
    · exact ih _ hr
    · simp only [List.map_cons, List.mem_cons] at h
      rcases h with h | h
      · subst h
        rw [dictGet_regFold_not_mem _ _ _ _ hr, dictGet_dictInsert_self]
      · exact absurd h hr

/-! Claim C1: tool name collisions. -/

/-- C1 fails on the code: after `p1` and then `p2` both advertise
`shared_tool`, the catalog maps `shared_tool` to `p2` (dict assignment on
line 58 overwrites), not to the first registrant `p1`, and an invocation of
`shared_tool` reaches provider `p2`. -/
theorem C1_counterexample :
    dictGet stCollide.tool_to_server "shared_tool" = some "p2" ∧
    dictGet stCollide.tool_to_server "shared_tool" ≠ some "p1" ∧
    processToolCall stCollide ctServerName ⟨"call1", "shared_tool", some "argv"⟩ =
      some ([callAnnot "shared_tool" "p2" "argv"],
        [mkAssistant ⟨"call1", "shared_tool", some "argv"⟩ "argv", .tool "call1" "p2"]) := by
  refine ⟨rfl, ?_, rfl⟩
  decide

/-- C1, amended: when two providers advertise the same tool name, the later
registration overwrites the earlier one — the catalog retains the
last-registered owner, and every invocation of that name routes to the last
provider. -/
theorem C1_last_registration_wins (st : ClientState) (p1 p2 : String)
    (ts1 ts2 : List Tool) (t : String)
    (h : t ∈ ts2.map Tool.name) (hne : p2.isEmpty = false) :
    dictGet ((connect_to_server (connect_to_server st p1 (.ok ts1)).1
        p2 (.ok ts2)).1).tool_to_server t = some p2 ∧
    (∀ ct id args c, ct p2 t args = CallOutcome.ok c →
      processToolCall ((connect_to_server (connect_to_server st p1 (.ok ts1)).1
          p2 (.ok ts2)).1) ct ⟨id, t, some args⟩ =
        some ([callAnnot t p2 args],
          [mkAssistant ⟨id, t, some args⟩ args, .tool id c])) := by
  have hmap : dictGet ((connect_to_server (connect_to_server st p1 (.ok ts1)).1
      p2 (.ok ts2)).1).tool_to_server t = some p2 := by
    simp only [connect_to_server]
    exact dictGet_regFold_mem _ _ _ _ h
  have hsess : dictGet ((connect_to_server (connect_to_server st p1 (.ok ts1)).1
      p2 (.ok ts2)).1).sessions p2 = some () := by
    simp only [connect_to_server]
    exact dictGet_dictInsert_self _ _ _
  refine ⟨hmap, fun ct id args c hc => ?_⟩
  simp [processToolCall, hmap, hne, hsess, hc]

/-- C1 amended theorem, applied at the collision fixture. -/
theorem C1_last_registration_wins_witness :
    dictGet ((connect_to_server (connect_to_server emptyState "p1" (.ok [tShared])).1
        "p2" (.ok [tShared])).1).tool_to_server "shared_tool" = some "p2" ∧
    (∀ ct id args c, ct "p2" "shared_tool" args = CallOutcome.ok c →
      processToolCall ((connect_to_server (connect_to_server emptyState "p1" (.ok [tShared])).1
          "p2" (.ok [tShared])).1) ct ⟨id, "shared_tool", some args⟩ =
        some ([callAnnot "shared_tool" "p2" args],
          [mkAssistant ⟨id, "shared_tool", some args⟩ args, .tool id c])) :=
  C1_last_registration_wins emptyState "p1" "p2" [tShared] [tShared] "shared_tool"
    (by simp [tShared]) rfl

/-! Claim C2: pending call whose tool name is absent from the catalog. -/

/-- C2 fails on the code: with only `echo` registered, a round whose single
pending call names `ghost` completes with an error annotation in the output,
but the `continue` on line 115 skips the message-append steps, so no
tool-result message echoing the call id `id1` — indeed no message at all —
is appended to the conversation. -/
theorem C2_counterexample :
    process_query stOne ctOk "q" [⟨some "calling", [⟨"id1", "ghost", some "br"⟩]⟩,
        ⟨some "done", []⟩] =
      .done ⟨"calling\n[错误: 找不到工具 ghost 所属的服务器]\ndone", [Message.user "q"], 2,
        ["calling", "[错误: 找不到工具 ghost 所属的服务器]", "done"]⟩ ∧
    (∀ s, Message.tool "id1" s ∉
      pqMessages (process_query stOne ctOk "q" [⟨some "calling", [⟨"id1", "ghost", some "br"⟩]⟩,
        ⟨some "done", []⟩])) := by
  refine ⟨rfl, fun s => ?_⟩
  rw [show process_query stOne ctOk "q" [⟨some "calling", [⟨"id1", "ghost", some "br"⟩]⟩,
        ⟨some "done", []⟩] =
      .done ⟨"calling\n[错误: 找不到工具 ghost 所属的服务器]\ndone", [Message.user "q"], 2,
        ["calling", "[错误: 找不到工具 ghost 所属的服务器]", "done"]⟩ from rfl]
  simp [pqMessages]

/-- C2, amended: for a pending call whose tool name is absent from the
catalog, `process_query` contacts no provider and records the error
annotation in the output, but appends no tool-result message — no message at
all — for that call to the conversation state. -/
theorem C2_missing_tool_appends_no_message (st : ClientState)
    (ct : String → String → String → CallOutcome) (q : String) (c0 : Option String)
    (tc : ToolCall) (args : String)
    (h1 : tc.arguments = some args)
    (h2 : dictGet st.tool_to_server tc.name = none) :
    process_query st ct q [⟨c0, [tc]⟩, ⟨none, []⟩] =
      .done ⟨joinNL [contentOrEmpty c0, errAnnot (notFoundMsg tc.name)],
        [Message.user q], 2, [contentOrEmpty c0, errAnnot (notFoundMsg tc.name)]⟩ := by
  simp [process_query, pqLoop, runCalls, processToolCall, h1, h2, isTruthy]

/-- C2 amended theorem, applied at the `ghost` fixture. -/
theorem C2_missing_tool_appends_no_message_witness :
    process_query stOne ctOk "q" [⟨some "calling", [⟨"id1", "ghost", some "br"⟩]⟩, ⟨none, []⟩] =
      .done ⟨joinNL [contentOrEmpty (some "calling"), errAnnot (notFoundMsg "ghost")],
        [Message.user "q"], 2,
        [contentOrEmpty (some "calling"), errAnnot (notFoundMsg "ghost")]⟩ :=
  C2_missing_tool_appends_no_message stOne ctOk "q" (some "calling")
    ⟨"id1", "ghost", some "br"⟩ "br" rfl rfl

/-! Claim C3: failures while resolving a tool call. -/

theorem processToolCall_isSome (st : ClientState)
    (ct : String → String → String → CallOutcome) (tc : ToolCall) (args : String)
    (h : tc.arguments = some args) : (processToolCall st ct tc).isSome := by
  simp only [processToolCall, h]
  repeat' split
  all_goals simp

theorem runCalls_isSome (st : ClientState)
    (ct : String → String → String → CallOutcome) (tcs : List ToolCall)
    (h : ∀ tc ∈ tcs, tc.arguments ≠ none) : (runCalls st ct tcs).isSome := by
  induction tcs with
  | nil => simp [runCalls]
  | cons tc rest ih =>
    have h1 : tc.arguments ≠ none := h tc (by simp)
    obtain ⟨args, ha⟩ := Option.ne_none_iff_exists'.mp h1
    have hp := processToolCall_isSome st ct tc args ha
    obtain ⟨p, hp⟩ := Option.isSome_iff_exists.mp hp
    have hr := ih (fun tc2 htc2 => h tc2 (by simp [htc2]))
    obtain ⟨q, hq⟩ := Option.isSome_iff_exists.mp hr
    simp [runCalls, hp, hq]

theorem pqLoop_ne_raised (st : ClientState)
    (ct : String → String → String → CallOutcome) :
    ∀ (rest : List ModelMessage) (message : ModelMessage) (ft : List String)
      (msgs : List Message) (calls : Nat),
      (∀ tc ∈ message.tool_calls, tc.arguments ≠ none) →
      (∀ r ∈ rest, ∀ tc ∈ r.tool_calls, tc.arguments ≠ none) →
      pqLoop st ct message rest ft msgs calls ≠ .raised := by
  intro rest
  induction rest with
  | nil =>
    intro message ft msgs calls hm _
    rw [pqLoop]
    split
    · simp
    · obtain ⟨p, hp⟩ := Option.isSome_iff_exists.mp (runCalls_isSome st ct _ hm)
      simp [hp]
  | cons r1 rest' ih =>
    intro message ft msgs calls hm hr
    rw [pqLoop]
    split
    · simp
    · obtain ⟨p, hp⟩ := Option.isSome_iff_exists.mp (runCalls_isSome st ct _ hm)
      simp only [hp]
      exact ih r1 _ _ _ (hr r1 (by simp)) (fun r hr2 => hr r (by simp [hr2]))

/-- C3 fails on the code: `json.loads(tool_call.function.arguments)` on
line 108 sits outside the try block, so a pending call whose arguments do not
parse as JSON propagates the exception and aborts `process_query`, even
though its tool `echo` is registered with a live session. -/
theorem C3_counterexample :
    process_query stOne ctOk "q" [⟨some "x", [⟨"id9", "echo", none⟩]⟩] =
      PQOutcome.raised := rfl

/-- C3, amended: for every tool call whose arguments parse as JSON, failure
while resolving the call is handled without propagation — a provider
exception is downgraded to a synthetic tool-result carrying the error
description — so such calls never abort `process_query`; only a call whose
arguments fail to parse propagates the exception and aborts the round. -/
theorem C3_no_abort_when_args_parse (st : ClientState)
    (ct : String → String → String → CallOutcome) (q : String)
    (rs : List ModelMessage)
    (hp : ∀ r ∈ rs, ∀ tc ∈ r.tool_calls, tc.arguments ≠ none) :
    process_query st ct q rs ≠ .raised ∧
    (∀ tc args server e,
      tc.arguments = some args →
      dictGet st.tool_to_server tc.name = some server →
      server.isEmpty = false →
      dictGet st.sessions server = some () →
      ct server tc.name args = .err e →
      processToolCall st ct tc =
        some ([errAnnot (invokeFailMsg tc.name e)],
          [mkAssistant tc args, .tool tc.id (invokeFailMsg tc.name e)])) := by
  constructor
  · cases rs with
    | nil => simp [process_query]
    | cons r0 rest =>
      exact pqLoop_ne_raised st ct rest r0 _ _ _
        (hp r0 (by simp)) (fun r hr => hp r (by simp [hr]))
  · intro tc args server e ha hr he hs hc
    simp [processToolCall, ha, hr, he, hs, hc]

/-- C3 amended theorem, applied to a two-round script over the three-tool
fixture, whose middle call raises `boom`. -/
theorem C3_no_abort_when_args_parse_witness :
    process_query stThree ctSix "q"
      [⟨some "x", [⟨"idA", "tA", some "a"⟩, ⟨"idB", "tB", some "b"⟩]⟩, ⟨none, []⟩] ≠
      .raised ∧
    (∀ tc args server e,
      tc.arguments = some args →
      dictGet stThree.tool_to_server tc.name = some server →
      server.isEmpty = false →
      dictGet stThree.sessions server = some () →
      ctSix server tc.name args = .err e →
      processToolCall stThree ctSix tc =
        some ([errAnnot (invokeFailMsg tc.name e)],
          [mkAssistant tc args, .tool tc.id (invokeFailMsg tc.name e)])) :=
  C3_no_abort_when_args_parse stThree ctSix "q"
    [⟨some "x", [⟨"idA", "tA", some "a"⟩, ⟨"idB", "tB", some "b"⟩]⟩, ⟨none, []⟩]
    (by intro r hr tc htc; fin_cases hr <;> fin_cases htc <;> simp)

/-! Claim C4: a provider failing handshake or discovery during start-up. -/

/-- C4 fails on the code: with `p1` failing its handshake and `p2` healthy,
start-up stores `p1`'s session before the handshake (line 45 precedes
line 47), the uncaught exception aborts the connect loop so `p2` is never
attempted, `chat_loop` is never entered, and the interpreter exits
nonzero. -/
theorem C4_counterexample :
    main cfgC4 ocC4 = ⟨1, false, true, ⟨[("p1", ())], [], []⟩, ["p1"]⟩ ∧
    dictGet (main cfgC4 ocC4).finalState.sessions "p1" = some () ∧
    "p2" ∉ (main cfgC4 ocC4).attempted ∧
    (main cfgC4 ocC4).enteredChatLoop = false := by
  refine ⟨rfl, rfl, ?_, rfl⟩
  decide

/-- C4, amended: a provider failing during handshake or discovery registers
no tools, but its session entry is left in the session map (the session is
stored before the handshake); the exception escapes `main`'s connect loop, so
the remaining configured providers are not attempted, the interactive loop is
never entered, and the process exits nonzero. -/
theorem C4_failed_connect_keeps_session_and_aborts :
    (∀ (st : ClientState) (name : String),
      connect_to_server st name .initFail =
        ({ st with sessions := dictInsert st.sessions name () }, true) ∧
      connect_to_server st name .discoveryFail =
        ({ st with sessions := dictInsert st.sessions name () }, true)) ∧
    (∀ (ocf : String → ConnectOutcome) (e : ServerEntry) (es : List ServerEntry),
      e.hasCommand = true → e.hasArgs = true →
      (connect_to_server emptyState e.name (ocf e.name)).2 = true →
      main (.servers (e :: es)) ocf =
        ⟨1, false, true, (connect_to_server emptyState e.name (ocf e.name)).1, [e.name]⟩) := by
  refine ⟨fun st name => ⟨rfl, rfl⟩, fun ocf e es h1 h2 hr => ?_⟩
  simp [main, connectAll, h1, h2, hr]

/-! Claim C5: empty or missing configuration. -/

/-- C5 fails on the code: a missing `mcp.json` and an empty `mcpServers` map
each print a diagnostic and make `main` return normally, so the process exits
with status 0 — not nonzero — without entering the interactive loop. -/
theorem C5_counterexample :
    main .fileNotFound ocAny = ⟨0, false, true, emptyState, []⟩ ∧
    main (.servers []) ocAny = ⟨0, false, true, emptyState, []⟩ ∧
    (main .fileNotFound ocAny).exitCode = 0 ∧
    (main (.servers []) ocAny).exitCode = 0 :=
  ⟨rfl, rfl, rfl, rfl⟩

/-- C5, amended: for every empty or missing configuration, start-up reports
the configuration problem and never enters the interactive loop, but `main`
returns normally, so the process exits with status zero rather than
nonzero. -/
theorem C5_config_error_exits_zero :
    ∀ ocf : String → ConnectOutcome,
      main .fileNotFound ocf = ⟨0, false, true, emptyState, []⟩ ∧
      main .invalidJson ocf = ⟨0, false, true, emptyState, []⟩ ∧
      main .noServersKey ocf = ⟨0, false, true, emptyState, []⟩ ∧
      main (.servers []) ocf = ⟨0, false, true, emptyState, []⟩ :=
  fun _ => ⟨rfl, rfl, rfl, rfl⟩

/-! Claims C6 and C7: routed calls within one round. -/

/-- A call whose tool is in the catalog with a live session is dispatched to
its owning provider: one annotation and the assistant/tool message pair are
appended, whatever the provider answers. -/
theorem processToolCall_routed (st : ClientState)
    (ct : String → String → String → CallOutcome) (tc : ToolCall)
    (args server : String)
    (ha : tc.arguments = some args) (hr : dictGet st.tool_to_server tc.name = some server)
    (he : server.isEmpty = false) (hs : dictGet st.sessions server = some ()) :
    processToolCall st ct tc =
      some ([callSeg ct server tc.name args],
        [mkAssistant tc args, .tool tc.id (callContent ct server tc.name args)]) := by
  cases hc : ct server tc.name args with
  | ok c => simp [processToolCall, ha, hr, he, hs, hc, callSeg, callContent]
  | err e => simp [processToolCall, ha, hr, he, hs, hc, callSeg, callContent]

/-- C6: in a round with pending calls A, B, C where invoking B raises while A
and C succeed, the round completes, results for all three calls are appended
in order, and only B's tool-result carries the synthetic failure payload. -/
theorem C6_partial_failure_round_completes (st : ClientState)
    (ct : String → String → String → CallOutcome) (q : String) (c0 : Option String)
    (A B C : ToolCall) (aA aB aC sA sB sC rA eB rC : String)
    (hAa : A.arguments = some aA) (hAr : dictGet st.tool_to_server A.name = some sA)
    (hAe : sA.isEmpty = false) (hAs : dictGet st.sessions sA = some ())
    (hAc : ct sA A.name aA = .ok rA)
    (hBa : B.arguments = some aB) (hBr : dictGet st.tool_to_server B.name = some sB)
    (hBe : sB.isEmpty = false) (hBs : dictGet st.sessions sB = some ())
    (hBc : ct sB B.name aB = .err eB)
    (hCa : C.arguments = some aC) (hCr : dictGet st.tool_to_server C.name = some sC)
    (hCe : sC.isEmpty = false) (hCs : dictGet st.sessions sC = some ())
    (hCc : ct sC C.name aC = .ok rC) :
    process_query st ct q [⟨c0, [A, B, C]⟩, ⟨none, []⟩] =
      .done ⟨joinNL [contentOrEmpty c0, callAnnot A.name sA aA,
          errAnnot (invokeFailMsg B.name eB), callAnnot C.name sC aC],
        [.user q, mkAssistant A aA, .tool A.id rA,
         mkAssistant B aB, .tool B.id (invokeFailMsg B.name eB),
         mkAssistant C aC, .tool C.id rC],
        2,
        [contentOrEmpty c0, callAnnot A.name sA aA,
         errAnnot (invokeFailMsg B.name eB), callAnnot C.name sC aC]⟩ := by
  simp [process_query, pqLoop, runCalls, isTruthy,
    processToolCall_routed st ct A aA sA hAa hAr hAe hAs,
    processToolCall_routed st ct B aB sB hBa hBr hBe hBs,
    processToolCall_routed st ct C aC sC hCa hCr hCe hCs,
    callSeg, callContent, hAc, hBc, hCc]

/-- C6 theorem, applied at the three-tool fixture where `tB` raises `boom`. -/
theorem C6_partial_failure_round_completes_witness :
    process_query stThree ctSix "q"
      [⟨some "x", [⟨"idA", "tA", some "a"⟩, ⟨"idB", "tB", some "b"⟩,
        ⟨"idC", "tC", some "c"⟩]⟩, ⟨none, []⟩] =
      .done ⟨joinNL [contentOrEmpty (some "x"), callAnnot "tA" "srv" "a",
          errAnnot (invokeFailMsg "tB" "boom"), callAnnot "tC" "srv" "c"],
        [.user "q", mkAssistant ⟨"idA", "tA", some "a"⟩ "a", .tool "idA" "res:tA",
         mkAssistant ⟨"idB", "tB", some "b"⟩ "b", .tool "idB" (invokeFailMsg "tB" "boom"),
         mkAssistant ⟨"idC", "tC", some "c"⟩ "c", .tool "idC" "res:tC"],
        2,
        [contentOrEmpty (some "x"), callAnnot "tA" "srv" "a",
         errAnnot (invokeFailMsg "tB" "boom"), callAnnot "tC" "srv" "c"]⟩ :=
  C6_partial_failure_round_completes stThree ctSix "q" (some "x")
    ⟨"idA", "tA", some "a"⟩ ⟨"idB", "tB", some "b"⟩ ⟨"idC", "tC", some "c"⟩
    "a" "b" "c" "srv" "srv" "srv" "res:tA" "boom" "res:tC"
    rfl rfl rfl rfl rfl rfl rfl rfl rfl rfl rfl rfl rfl rfl rfl

/-- C7 fails on the code: with pending calls A, B, C where B's tool `ghost`
is not in the catalog, the appended tool-result messages are those of A and C
only — no result for B appears at all, so the results are not exactly
[A, B, C]. -/
theorem C7_counterexample :
    process_query stThree ctSix "q"
      [⟨some "x", [⟨"idA", "tA", some "a"⟩, ⟨"idB", "ghost", some "b"⟩,
        ⟨"idC", "tC", some "c"⟩]⟩, ⟨none, []⟩] =
      .done ⟨"x\n[调用工具 tA (服务器: srv), 参数: a]\n[错误: 找不到工具 ghost 所属的服务器]\n[调用工具 tC (服务器: srv), 参数: c]",
        [.user "q", mkAssistant ⟨"idA", "tA", some "a"⟩ "a", .tool "idA" "res:tA",
         mkAssistant ⟨"idC", "tC", some "c"⟩ "c", .tool "idC" "res:tC"],
        2,
        ["x", "[调用工具 tA (服务器: srv), 参数: a]", "[错误: 找不到工具 ghost 所属的服务器]",
         "[调用工具 tC (服务器: srv), 参数: c]"]⟩ ∧
    (∀ s, Message.tool "idB" s ∉
      pqMessages (process_query stThree ctSix "q"
        [⟨some "x", [⟨"idA", "tA", some "a"⟩, ⟨"idB", "ghost", some "b"⟩,
          ⟨"idC", "tC", some "c"⟩]⟩, ⟨none, []⟩])) := by
  refine ⟨rfl, fun s => ?_⟩
  rw [show process_query stThree ctSix "q"
      [⟨some "x", [⟨"idA", "tA", some "a"⟩, ⟨"idB", "ghost", some "b"⟩,
        ⟨"idC", "tC", some "c"⟩]⟩, ⟨none, []⟩] =
      .done ⟨"x\n[调用工具 tA (服务器: srv), 参数: a]\n[错误: 找不到工具 ghost 所属的服务器]\n[调用工具 tC (服务器: srv), 参数: c]",
        [.user "q", mkAssistant ⟨"idA", "tA", some "a"⟩ "a", .tool "idA" "res:tA",
         mkAssistant ⟨"idC", "tC", some "c"⟩ "c", .tool "idC" "res:tC"],
        2,
        ["x", "[调用工具 tA (服务器: srv), 参数: a]", "[错误: 找不到工具 ghost 所属的服务器]",
         "[调用工具 tC (服务器: srv), 参数: c]"]⟩ from rfl]
  simp [pqMessages, mkAssistant]

/-- C7, amended: calls are resolved strictly sequentially in the order the
model emitted them; when each pending call's tool is in the catalog with a
live session (and its arguments parse), the appended tool-result messages
appear in exactly the order A, B, C whatever each invocation returns, while a
call whose tool cannot be routed appends no tool-result message and so drops
out of the sequence. -/
theorem C7_routed_results_in_emission_order (st : ClientState)
    (ct : String → String → String → CallOutcome) (q : String) (c0 : Option String)
    (A B C : ToolCall) (aA aB aC sA sB sC : String)
    (hAa : A.arguments = some aA) (hAr : dictGet st.tool_to_server A.name = some sA)
    (hAe : sA.isEmpty = false) (hAs : dictGet st.sessions sA = some ())
    (hBa : B.arguments = some aB) (hBr : dictGet st.tool_to_server B.name = some sB)
    (hBe : sB.isEmpty = false) (hBs : dictGet st.sessions sB = some ())
    (hCa : C.arguments = some aC) (hCr : dictGet st.tool_to_server C.name = some sC)
    (hCe : sC.isEmpty = false) (hCs : dictGet st.sessions sC = some ()) :
    process_query st ct q [⟨c0, [A, B, C]⟩, ⟨none, []⟩] =
      .done ⟨joinNL [contentOrEmpty c0, callSeg ct sA A.name aA,
          callSeg ct sB B.name aB, callSeg ct sC C.name aC],
        [.user q, mkAssistant A aA, .tool A.id (callContent ct sA A.name aA),
         mkAssistant B aB, .tool B.id (callContent ct sB B.name aB),
         mkAssistant C aC, .tool C.id (callContent ct sC C.name aC)],
        2,
        [contentOrEmpty c0, callSeg ct sA A.name aA,
         callSeg ct sB B.name aB, callSeg ct sC C.name aC]⟩ := by
  simp [process_query, pqLoop, runCalls, isTruthy,
    processToolCall_routed st ct A aA sA hAa hAr hAe hAs,
    processToolCall_routed st ct B aB sB hBa hBr hBe hBs,
    processToolCall_routed st ct C aC sC hCa hCr hCe hCs]

/-- C7 amended theorem, applied at the three-tool fixture (the middle call
raises and its result still sits second). -/
theorem C7_routed_results_in_emission_order_witness :
    process_query stThree ctSix "q2"
      [⟨some "y", [⟨"idA", "tA", some "u"⟩, ⟨"idB", "tB", some "v"⟩,
        ⟨"idC", "tC", some "w"⟩]⟩, ⟨none, []⟩] =
      .done ⟨joinNL [contentOrEmpty (some "y"), callSeg ctSix "srv" "tA" "u",
          callSeg ctSix "srv" "tB" "v", callSeg ctSix "srv" "tC" "w"],
        [.user "q2", mkAssistant ⟨"idA", "tA", some "u"⟩ "u",
         .tool "idA" (callContent ctSix "srv" "tA" "u"),
         mkAssistant ⟨"idB", "tB", some "v"⟩ "v",
         .tool "idB" (callContent ctSix "srv" "tB" "v"),
         mkAssistant ⟨"idC", "tC", some "w"⟩ "w",
         .tool "idC" (callContent ctSix "srv" "tC" "w")],
        2,
        [contentOrEmpty (some "y"), callSeg ctSix "srv" "tA" "u",
         callSeg ctSix "srv" "tB" "v", callSeg ctSix "srv" "tC" "w"]⟩ :=
  C7_routed_results_in_emission_order stThree ctSix "q2" (some "y")
    ⟨"idA", "tA", some "u"⟩ ⟨"idB", "tB", some "v"⟩ ⟨"idC", "tC", some "w"⟩
    "u" "v" "w" "srv" "srv" "srv"
    rfl rfl rfl rfl rfl rfl rfl rfl rfl rfl rfl rfl

/-! Claim C8: a first response with no pending calls. -/

/-- C8: when the first model response carries no pending invocation requests,
`process_query` makes exactly one model call and returns that response's
text as the whole output. -/
theorem C8_no_tool_calls_single_round (st : ClientState)
    (ct : String → String → String → CallOutcome) (q t : String)
    (r0 : ModelMessage) (rest : List ModelMessage)
    (h1 : r0.tool_calls = []) (h2 : r0.content = some t) :
    process_query st ct q (r0 :: rest) = .done ⟨t, [.user q], 1, [t]⟩ := by
  simp [process_query, pqLoop, h1, h2, contentOrEmpty, joinNL]

/-- C8 theorem, applied at a single text-only response. -/
theorem C8_no_tool_calls_single_round_witness :
    process_query stOne ctOk "q" [⟨some "hi", []⟩] =
      .done ⟨"hi", [.user "q"], 1, ["hi"]⟩ :=
  C8_no_tool_calls_single_round stOne ctOk "q" "hi" ⟨some "hi", []⟩ [] rfl rfl

/-! Claim C9: every tool-result message answers the immediately preceding
assistant message. -/

/-- Walk a message list carrying the immediately preceding message: every
tool-result message must be immediately preceded by an assistant message one
of whose pending calls has the same call id. -/
def ImmPrecInv : Option Message → List Message → Prop
  | _, [] => True
  | prev, m :: rest =>
    (match m with
     | Message.tool id _ =>
         ∃ tcs, prev = some (Message.assistant tcs) ∧ id ∈ tcs.map ToolCall.id
     | _ => True) ∧ ImmPrecInv (some m) rest

/-- The shape of everything the dispatch loop appends to `messages`: a
sequence of assistant/tool-result pairs whose ids agree. -/
inductive Blocks : List Message → Prop
  | nil : Blocks []
  | pair (tcs : List ToolCall) (id c : String) (rest : List Message)
      (hm : id ∈ tcs.map ToolCall.id) (h : Blocks rest) :
      Blocks (Message.assistant tcs :: Message.tool id c :: rest)

theorem blocks_append {xs ys : List Message} (hx : Blocks xs) (hy : Blocks ys) :
    Blocks (xs ++ ys) := by
  induction hx with
  | nil => simpa using hy
  | pair tcs id c rest hm _ ih =>
    simpa only [List.cons_append] using Blocks.pair tcs id c _ hm ih

theorem blocks_immPrecInv {ys : List Message} (h : Blocks ys) :
    ∀ prev, ImmPrecInv prev ys := by
  induction h with
  | nil => intro prev; simp [ImmPrecInv]
  | pair tcs id c rest hm _ ih =>
    intro prev
    exact ⟨trivial, ⟨tcs, rfl, hm⟩, ih (some (.tool id c))⟩

theorem immPrecInv_append {xs ys : List Message} :
    ∀ (p : Option Message), ImmPrecInv p xs → (∀ prev, ImmPrecInv prev ys) →
      ImmPrecInv p (xs ++ ys) := by
  induction xs with
  | nil => intro p _ hy; simpa using hy p
  | cons m xs ih =>
    intro p hx hy
    exact ⟨hx.1, ih (some m) hx.2 hy⟩

theorem processToolCall_shape (st : ClientState)
    (ct : String → String → String → CallOutcome) (tc : ToolCall)
    (a : List String) (ms : List Message)
    (h : processToolCall st ct tc = some (a, ms)) :
    (∃ s, a = [s]) ∧ Blocks ms := by
  unfold processToolCall at h
  split at h
  · exact absurd h (by simp)
  · split at h
    · simp only [Option.some.injEq, Prod.mk.injEq] at h
      obtain ⟨rfl, rfl⟩ := h
      exact ⟨⟨_, rfl⟩, Blocks.nil⟩
    · split at h
      · simp only [Option.some.injEq, Prod.mk.injEq] at h
        obtain ⟨rfl, rfl⟩ := h
        exact ⟨⟨_, rfl⟩, Blocks.nil⟩
      · split at h
        · simp only [Option.some.injEq, Prod.mk.injEq] at h
          obtain ⟨rfl, rfl⟩ := h
          exact ⟨⟨_, rfl⟩, Blocks.nil⟩
        · split at h <;>
            (simp only [Option.some.injEq, Prod.mk.injEq] at h
             obtain ⟨rfl, rfl⟩ := h
             exact ⟨⟨_, rfl⟩, Blocks.pair _ _ _ [] (by simp [mkAssistant]) Blocks.nil⟩)

theorem runCalls_blocks (st : ClientState)
    (ct : String → String → String → CallOutcome) :
    ∀ (tcs : List ToolCall) (a : List String) (ms : List Message),
      runCalls st ct tcs = some (a, ms) → Blocks ms := by
  intro tcs
  induction tcs with
  | nil =>
    intro a ms h
    simp only [runCalls, Option.some.injEq, Prod.mk.injEq] at h
    obtain ⟨-, rfl⟩ := h
    exact Blocks.nil
  | cons tc rest ih =>
    intro a ms h
    cases hp : processToolCall st ct tc with
    | none => simp [runCalls, hp] at h
    | some p =>
      cases hq : runCalls st ct rest with
      | none => simp [runCalls, hp, hq] at h
      | some q2 =>
        simp only [runCalls, hp, hq, Option.some.injEq, Prod.mk.injEq] at h
        obtain ⟨-, rfl⟩ := h
        exact blocks_append
          ((processToolCall_shape st ct tc p.1 p.2 (by rw [hp])).2)
          (ih q2.1 q2.2 (by rw [hq]))

theorem pqLoop_done_inv (st : ClientState)
    (ct : String → String → String → CallOutcome) :
    ∀ (rest : List ModelMessage) (message : ModelMessage) (ft : List String)
      (msgs : List Message) (calls : Nat) (r : PQResult),
      pqLoop st ct message rest ft msgs calls = .done r →
      ImmPrecInv none msgs → ImmPrecInv none r.messages := by
  intro rest
  induction rest with
  | nil =>
    intro message ft msgs calls r h hi
    rw [pqLoop] at h
    split at h
    · injection h with h'
      subst h'
      exact hi
    · split at h
      · simp at h
      · simp at h
  | cons r1 rest' ih =>
    intro message ft msgs calls r h hi
    rw [pqLoop] at h
    split at h
    · injection h with h'
      subst h'
      exact hi
    · split at h
      · simp at h
      · next p hp =>
        exact ih r1 _ _ _ r h
          (immPrecInv_append none hi
            (blocks_immPrecInv (runCalls_blocks st ct _ p.1 p.2 (by rw [hp]))))

/-- C9: in every completed `process_query` run, each tool-result message in
the conversation state carries a call id matching a pending invocation
request of the immediately preceding assistant message. -/
theorem C9_tool_result_id_matches (st : ClientState)
    (ct : String → String → String → CallOutcome) (q : String)
    (rs : List ModelMessage) (r : PQResult)
    (h : process_query st ct q rs = .done r) :
    ImmPrecInv none r.messages := by
  cases rs with
  | nil => simp [process_query] at h
  | cons r0 rest =>
    exact pqLoop_done_inv st ct rest r0 _ _ _ r h (by simp [ImmPrecInv])

/-- C9 theorem, applied at the three-tool fixture round. -/
theorem C9_tool_result_id_matches_witness :
    ImmPrecInv none
      (PQResult.messages
        ⟨"x\n[调用工具 tA (服务器: srv), 参数: a]\n[错误: 调用工具 tB 失败: boom]\n[调用工具 tC (服务器: srv), 参数: c]",
          [.user "q", mkAssistant ⟨"idA", "tA", some "a"⟩ "a", .tool "idA" "res:tA",
           mkAssistant ⟨"idB", "tB", some "b"⟩ "b", .tool "idB" "调用工具 tB 失败: boom",
           mkAssistant ⟨"idC", "tC", some "c"⟩ "c", .tool "idC" "res:tC"],
          2,
          ["x", "[调用工具 tA (服务器: srv), 参数: a]", "[错误: 调用工具 tB 失败: boom]",
           "[调用工具 tC (服务器: srv), 参数: c]"]⟩) :=
  C9_tool_result_id_matches stThree ctSix "q"
    [⟨some "x", [⟨"idA", "tA", some "a"⟩, ⟨"idB", "tB", some "b"⟩,
      ⟨"idC", "tC", some "c"⟩]⟩, ⟨none, []⟩] _ rfl

/-! Claim C10: output segments contributed by model responses. -/

theorem pqLoop_done_segs (st : ClientState)
    (ct : String → String → String → CallOutcome) :
    ∀ (rest : List ModelMessage) (message : ModelMessage) (ft : List String)
      (msgs : List Message) (calls : Nat) (r : PQResult),
      pqLoop st ct message rest ft msgs calls = .done r →
      ∃ tl, r.finalTextSegs = ft ++ tl := by
  intro rest
  induction rest with
  | nil =>
    intro message ft msgs calls r h
    rw [pqLoop] at h
    split at h
    · injection h with h'
      subst h'
      exact ⟨[], by simp⟩
    · split at h
      · simp at h
      · simp at h
  | cons r1 rest' ih =>
    intro message ft msgs calls r h
    rw [pqLoop] at h
    split at h
    · injection h with h'
      subst h'
      exact ⟨[], by simp⟩
    · split at h
      · simp at h
      · next p _ =>
        obtain ⟨tl, htl⟩ := ih r1 _ _ _ r h
        exact ⟨p.1 ++ (if isTruthy r1.content then [contentOrEmpty r1.content] else []) ++ tl,
          by simp [htl]⟩

theorem runCalls_annot_ne_nil (st : ClientState)
    (ct : String → String → String → CallOutcome) (tc : ToolCall)
    (tcs : List ToolCall) (p : List String × List Message)
    (h : runCalls st ct (tc :: tcs) = some p) : p.1 ≠ [] := by
  cases hp : processToolCall st ct tc with
  | none => simp [runCalls, hp] at h
  | some p0 =>
    cases hq : runCalls st ct tcs with
    | none => simp [runCalls, hp, hq] at h
    | some q2 =>
      simp only [runCalls, hp, hq, Option.some.injEq] at h
      obtain ⟨s, hs⟩ := (processToolCall_shape st ct tc p0.1 p0.2 (by rw [hp])).1
      rw [← h]
      simp [hs]

/-- C10: the first model response always contributes exactly one leading
output segment — the empty string when its text is absent, so tool-call
annotations are preceded by an empty line — while in every later round a
response with no (truthy) text contributes no segment at all. -/
theorem C10_first_response_segment_rules :
    (∀ (st : ClientState) (ct : String → String → String → CallOutcome) (q : String)
       (r0 : ModelMessage) (rest : List ModelMessage) (r : PQResult),
       process_query st ct q (r0 :: rest) = .done r →
       r.finalTextSegs.head? = some (contentOrEmpty r0.content)) ∧
    (∀ (st : ClientState) (ct : String → String → String → CallOutcome) (q : String)
       (r0 : ModelMessage) (rest : List ModelMessage) (r : PQResult),
       process_query st ct q (r0 :: rest) = .done r →
       r0.content = none → r0.tool_calls ≠ [] →
       ∃ tl, r.finalTextSegs = "" :: tl ∧ tl ≠ []) ∧
    (∀ (st : ClientState) (ct : String → String → String → CallOutcome)
       (message r1 : ModelMessage) (rest' : List ModelMessage) (ft : List String)
       (msgs : List Message) (calls : Nat) (p : List String × List Message),
       message.tool_calls.isEmpty = false →
       runCalls st ct message.tool_calls = some p →
       isTruthy r1.content = false →
       pqLoop st ct message (r1 :: rest') ft msgs calls =
         pqLoop st ct r1 rest' (ft ++ p.1) (msgs ++ p.2) (calls + 1)) := by
  refine ⟨?_, ?_, ?_⟩
  · intro st ct q r0 rest r h
    simp only [process_query] at h
    obtain ⟨tl, htl⟩ := pqLoop_done_segs st ct rest r0 _ _ _ r h
    rw [htl]
    simp
  · intro st ct q r0 rest r h hc hne
    simp only [process_query] at h
    rw [pqLoop] at h
    split at h
    · next hie =>
      exact absurd (by simpa using hie) hne
    · split at h
      · simp at h
      · next p hp =>
        split at h
        · simp at h
        · next r1 rest' =>
          obtain ⟨tl, htl⟩ := pqLoop_done_segs st ct rest' r1 _ _ _ r h
          obtain ⟨tc, tcs', hcalls⟩ : ∃ tc tcs', r0.tool_calls = tc :: tcs' := by
            cases hx : r0.tool_calls with
            | nil => exact absurd hx hne
            | cons tc tcs' => exact ⟨tc, tcs', rfl⟩
          have hpne : p.1 ≠ [] := runCalls_annot_ne_nil st ct tc tcs' p (by rw [← hcalls, hp])
          obtain ⟨s, l, hsl⟩ := List.exists_cons_of_ne_nil hpne
          refine ⟨s :: l ++ (if isTruthy r1.content then [contentOrEmpty r1.content] else [])
            ++ tl, ?_, by simp⟩
          rw [htl, hsl]
          simp [hc, contentOrEmpty]
  · intro st ct message r1 rest' ft msgs calls p h1 h2 h3
    conv_lhs => rw [pqLoop]
    simp [h1, h2, h3]

end MCPClient
